import Mathlib

/- Verification of the real-time fan-out notification core of the MedSoft
   repository.  Two variants of the core exist in the sources:

   - src/MedSoft/FHIR/main.py (class WSManager, endpoint chief_ws): the FHIR
     variant; its broadcast iterates over the copy list(self.active), checks
     client_state, and catches (WebSocketDisconnect, ConnectionResetError,
     BrokenPipeError, OSError, RuntimeError); its liveness loop waits with
     asyncio.wait_for(..., timeout=30) and answers a timeout with one ping.

   - src/MedSoft/HL7 2/HL7/chief_server.py (class WSManager, endpoint
     chief_ws): the HL7 variant; its broadcast iterates over self.active
     itself, catches Exception, and defers removal to a drop list; its
     liveness loop is a bare receive_text with no timeout and no ping.

   Connections are identified by an opaque identity (Python object identity),
   modelled as a natural number.  The registry is the Python list
   WSManager.active; connect appends, disconnect removes the first
   occurrence when present. -/

/-- Identity of one WebSocket connection (Python object identity). -/
abbrev Conn := Nat

/-- The starlette WebSocketState of the client side of a connection. -/
inductive WSState where
  | connecting
  | connected
  | disconnected
deriving DecidableEq

/-- Exception classes, all derived from Exception, that a send_json call can
raise: the five classes caught by the FHIR broadcast, and typeError standing
for any other Exception (such as a serialization TypeError from json.dumps,
or a websockets ConnectionClosed, neither of which is in the FHIR tuple). -/
inductive Exc where
  | wsDisconnect
  | connReset
  | brokenPipe
  | osError
  | runtimeError
  | typeError
deriving DecidableEq

/-- WSManager.connect (both variants): self.active.append(ws). -/
def connect (active : List Conn) (c : Conn) : List Conn :=
  active ++ [c]

/-- WSManager.disconnect (both variants):
if ws in self.active: self.active.remove(ws).
Python list.remove deletes the first occurrence only. -/
def disconnect (active : List Conn) (c : Conn) : List Conn :=
  if c ∈ active then active.erase c else active

/-- One registry mutation issued by some task: a connect or a disconnect. -/
inductive RegOp where
  | add (c : Conn)
  | rem (c : Conn)
deriving DecidableEq

/-- Apply one registry mutation. -/
def applyRegOp (active : List Conn) : RegOp → List Conn
  | .add c => connect active c
  | .rem c => disconnect active c

/-- Apply a sequence of registry mutations in order. -/
def applyRegOps (active : List Conn) (ops : List RegOp) : List Conn :=
  ops.foldl applyRegOp active

/-- Along the sequence of operations, every add is of a connection that is
not currently registered (each accepted WebSocket object is fresh). -/
def addFresh : List Conn → List RegOp → Bool
  | _, [] => true
  | active, op :: rest =>
    (match op with
     | RegOp.add c => decide (c ∉ active)
     | RegOp.rem _ => true) && addFresh (applyRegOp active op) rest

/-- One fold step of the claim's set semantics of the registry. -/
def specStep (s : Finset Conn) : RegOp → Finset Conn
  | .add c => insert c s
  | .rem c => s.erase c

/-- Stated from the claim's words: the set of connections added and not
subsequently removed, with set semantics, to be compared with the list
registry the code keeps. -/
def specMembers (ops : List RegOp) : Finset Conn :=
  ops.foldl specStep ∅

/-- Observable result of one broadcast call: the connections on which
send_json was invoked, the registry afterwards, and the exception escaping
the call to its caller, if any. -/
structure BroadcastOut where
  attempted : List Conn
  active : List Conn
  exc : Option Exc
deriving DecidableEq

/-- The exception classes caught by the FHIR broadcast: WebSocketDisconnect,
ConnectionResetError, BrokenPipeError, OSError, RuntimeError. -/
def fhirCaught : Exc → Bool
  | .wsDisconnect => true
  | .connReset => true
  | .brokenPipe => true
  | .osError => true
  | .runtimeError => true
  | .typeError => false

/-- Loop of the FHIR WSManager.broadcast over the snapshot list(self.active):
a member whose client_state is CONNECTED gets send_json; one that is not gets
disconnect without a send; a caught exception leads to disconnect; any other
exception escapes the call at once, ending the iteration.  `state` gives each
connection's client_state and `send` the outcome of send_json on it
(none = success). -/
def fhirBroadcastGo (state : Conn → WSState) (send : Conn → Option Exc) :
    List Conn → List Conn → List Conn → BroadcastOut
  | [], attempted, active => ⟨attempted, active, none⟩
  | c :: rest, attempted, active =>
    if state c = WSState.connected then
      match send c with
      | none => fhirBroadcastGo state send rest (attempted ++ [c]) active
      | some e =>
        if fhirCaught e then
          fhirBroadcastGo state send rest (attempted ++ [c]) (disconnect active c)
        else ⟨attempted ++ [c], active, some e⟩
    else fhirBroadcastGo state send rest attempted (disconnect active c)

/-- WSManager.broadcast of the FHIR variant: iterate over the call-time copy
list(self.active). -/
def fhirBroadcast (state : Conn → WSState) (send : Conn → Option Exc)
    (active : List Conn) : BroadcastOut :=
  fhirBroadcastGo state send active [] active

/-- First loop of the HL7 WSManager.broadcast: every member of self.active
gets a send attempt; those whose send raised are collected into drop, in
order; except Exception catches every Exc. -/
def hl7Drop (send : Conn → Option Exc) : List Conn → List Conn
  | [] => []
  | c :: rest =>
    match send c with
    | none => hl7Drop send rest
    | some _ => c :: hl7Drop send rest

/-- WSManager.broadcast of the HL7 variant: send to every member of the live
list, then disconnect every collected member; there is no client_state check
and no exception escapes the call. -/
def hl7Broadcast (send : Conn → Option Exc) (active : List Conn) : BroadcastOut :=
  ⟨active, (hl7Drop send active).foldl disconnect active, none⟩

/- Interleaved runs of broadcast.  Every await ws.send_json(...) inside the
broadcast loop is a suspension point of the owning task, at which the
scheduler may run other tasks that mutate the registry; the state check and
the disconnect calls are synchronous.  `sched i` lists the registry
mutations performed by other tasks during the i-th iteration's await;
`state` and `send` are indexed by the iteration as well. -/

/-- Interleaved run of the FHIR broadcast loop: the iteration is over the
call-time copy list(self.active), which no concurrent mutation touches; the
live registry evolves under both the loop's own disconnects and `sched`.
Returns the attempted connections, the final registry, and the escaping
exception, if any. -/
def fhirBroadcastConcGo (state : Nat → Conn → WSState) (send : Nat → Conn → Option Exc)
    (sched : Nat → List RegOp) :
    List Conn → Nat → List Conn → List Conn → List Conn × List Conn × Option Exc
  | [], _, attempted, active => (attempted, active, none)
  | c :: rest, i, attempted, active =>
    if state i c = WSState.connected then
      match send i c with
      | none =>
        fhirBroadcastConcGo state send sched rest (i + 1) (attempted ++ [c])
          (applyRegOps active (sched i))
      | some e =>
        if fhirCaught e then
          fhirBroadcastConcGo state send sched rest (i + 1) (attempted ++ [c])
            (applyRegOps (disconnect active c) (sched i))
        else (attempted ++ [c], active, some e)
    else fhirBroadcastConcGo state send sched rest (i + 1) attempted (disconnect active c)

/-- Interleaved run of the FHIR broadcast from a registry `active`. -/
def fhirBroadcastConc (state : Nat → Conn → WSState) (send : Nat → Conn → Option Exc)
    (sched : Nat → List RegOp) (active : List Conn) : List Conn × List Conn × Option Exc :=
  fhirBroadcastConcGo state send sched active 0 [] active

/-- Interleaved run of the HL7 broadcast loop: `for ws in self.active` uses a
Python list iterator over the LIVE list, an internal index i that yields
active[i] while i is in range; concurrent mutations during the await change
the very list being iterated.  The drop loop after it is synchronous.
`fuel` bounds the number of iterations (the live list can keep growing);
none means the fuel ran out. -/
def hl7BroadcastConcGo (send : Nat → Conn → Option Exc) (sched : Nat → List RegOp) :
    Nat → Nat → List Conn → List Conn → List Conn → Option (List Conn × List Conn)
  | 0, _, _, _, _ => none
  | fuel + 1, i, active, attempted, drop =>
    match active.get? i with
    | none => some (attempted, drop.foldl disconnect active)
    | some c =>
      hl7BroadcastConcGo send sched fuel (i + 1) (applyRegOps active (sched i))
        (attempted ++ [c])
        (if (send i c).isSome then drop ++ [c] else drop)

/-- Interleaved run of the HL7 broadcast from a registry `active`. -/
def hl7BroadcastConc (send : Nat → Conn → Option Exc) (sched : Nat → List RegOp)
    (fuel : Nat) (active : List Conn) : Option (List Conn × List Conn) :=
  hl7BroadcastConcGo send sched fuel 0 active [] []

/- The per-connection liveness loops of the two chief_ws endpoints. -/

/-- One row of the patient list as fetched by fetch_last_patients. -/
structure PatientRow where
  id : Nat
  last_name : String
  first_name : String
  dob : String
  fhir_id : String
deriving DecidableEq

/-- A server-to-client frame on the real-time channel. -/
inductive Frame where
  | patients (data : List PatientRow)
  | ping
deriving DecidableEq

/-- Environment events seen by one connection's liveness loop, in order: an
inbound text frame with its content, 30 time units passing with no inbound
frame, or a transport failure / peer disconnect ending the current wait. -/
inductive EnvEvent where
  | text (s : String)
  | silence30
  | disconnected
deriving DecidableEq

/-- Liveness loop of the FHIR chief_ws: await wait_for(receive_text, 30);
an inbound text is discarded; a TimeoutError (30 silent units) sends one
ping when client_state is CONNECTED; a transport failure or disconnect ends
the loop.  Returns the frames the loop sent and whether it has ended. -/
def fhirLoopRun (st : WSState) : List EnvEvent → List Frame × Bool
  | [] => ([], false)
  | .text _ :: rest => fhirLoopRun st rest
  | .silence30 :: rest =>
    let r := fhirLoopRun st rest
    (if st = WSState.connected then Frame.ping :: r.1 else r.1, r.2)
  | .disconnected :: _ => ([], true)

/-- Liveness loop of the HL7 chief_ws: a bare await receive_text() with no
timeout; an inbound text is discarded; silent time sends nothing; a
transport failure or disconnect ends the loop. -/
def hl7LoopRun : List EnvEvent → List Frame × Bool
  | [] => ([], false)
  | .text _ :: rest => hl7LoopRun rest
  | .silence30 :: rest => hl7LoopRun rest
  | .disconnected :: _ => ([], true)

/-- Full run of the FHIR chief_ws handler over an environment trace: connect
(accept and append), send the current patient-list snapshot, run the
liveness loop; the finally clause disconnects whenever the loop has ended.
Returns the frames sent on the connection, in order, and the registry. -/
def fhirChiefWsRun (st : WSState) (rows : List PatientRow) (active : List Conn)
    (c : Conn) (l : List EnvEvent) : List Frame × List Conn :=
  let active1 := connect active c
  let r := fhirLoopRun st l
  (Frame.patients rows :: r.1, if r.2 then disconnect active1 c else active1)

/-- Full run of the HL7 chief_ws handler over an environment trace: connect,
send the current patient-list snapshot, run the liveness loop; the except
clauses disconnect whenever the loop has ended on a transport event. -/
def hl7ChiefWsRun (rows : List PatientRow) (active : List Conn)
    (c : Conn) (l : List EnvEvent) : List Frame × List Conn :=
  let active1 := connect active c
  let r := hl7LoopRun l
  (Frame.patients rows :: r.1, if r.2 then disconnect active1 c else active1)

/-- Two environment traces that differ at most in the contents of inbound
text frames. -/
inductive SameShape : List EnvEvent → List EnvEvent → Prop
  | nil : SameShape [] []
  | text (s t : String) {l1 l2 : List EnvEvent} :
      SameShape l1 l2 → SameShape (.text s :: l1) (.text t :: l2)
  | silence {l1 l2 : List EnvEvent} :
      SameShape l1 l2 → SameShape (.silence30 :: l1) (.silence30 :: l2)
  | disc {l1 l2 : List EnvEvent} :
      SameShape l1 l2 → SameShape (.disconnected :: l1) (.disconnected :: l2)

/- Exit paths of the two chief_ws handlers. -/

/-- How a liveness loop run terminates: one of the exceptions its handler
may see, or cancellation of the owning task (asyncio.CancelledError, a
BaseException since Python 3.8). -/
inductive ExitCause where
  | wsDisconnect
  | connReset
  | osErr
  | otherExc
  | cancelled
deriving DecidableEq

/-- Exit of the FHIR chief_ws handler: except (WebSocketDisconnect,
ConnectionResetError, OSError): pass; finally: ws_manager.disconnect(ws).
The finally clause runs on every exit, cancellation included.  Returns the
registry afterwards and the exception still propagating, if any. -/
def fhirChiefExit (active : List Conn) (c : Conn) (cause : ExitCause) :
    List Conn × Option ExitCause :=
  (disconnect active c,
   match cause with
   | .wsDisconnect => none
   | .connReset => none
   | .osErr => none
   | e => some e)

/-- Exit of the HL7 chief_ws handler: except WebSocketDisconnect and except
Exception both call ws_manager.disconnect(ws); there is no finally clause,
and a BaseException such as task cancellation matches neither except
clause, so the handler unwinds without disconnecting. -/
def hl7ChiefExit (active : List Conn) (c : Conn) (cause : ExitCause) :
    List Conn × Option ExitCause :=
  match cause with
  | .cancelled => (active, some ExitCause.cancelled)
  | _ => (disconnect active c, none)

/- Trace model for the opening handshake and concurrent broadcasts.  The
atomic actions below are the observable steps of the chief_ws handler and of
the broadcast tasks; frames reach one connection in the order the sends to
it occur in the trace.  In the source there is no await between the append
inside connect and the send of the snapshot frame (connect returns to the
handler, which immediately awaits ws.send_json on the same task), so those
two actions are adjacent in every realizable trace. -/

/-- Atomic observable actions: the append of a connection inside connect,
the handler's send of the snapshot frame to it, the start of broadcast b
(taking its copy of the registry), and broadcast b's send to a connection. -/
inductive Act where
  | append (c : Conn)
  | sendSnap (c : Conn)
  | bStart (b : Nat)
  | bSend (b : Nat) (c : Conn)
deriving DecidableEq

/-- The action sequence of one broadcast task over its call-time copy. -/
def broadcastTask (b : Nat) (snap : List Conn) : List Act :=
  Act.bStart b :: snap.map (fun c => Act.bSend b c)

/-- Interleaving of two task action sequences into one trace: each task's
own order is preserved, steps of the two tasks alternate arbitrarily. -/
inductive Merge : List Act → List Act → List Act → Prop
  | nil : Merge [] [] []
  | left {x : Act} {xs ys zs : List Act} : Merge xs ys zs → Merge (x :: xs) ys (x :: zs)
  | right {y : Act} {xs ys zs : List Act} : Merge xs ys zs → Merge xs (y :: ys) (y :: zs)

/- The /fhir/Patient ingest route of the FHIR variant. -/

/-- One row of the fhir_messages table. -/
structure FhirMsgRow where
  created_at : String
  raw : String
deriving DecidableEq

/-- One row of the patients table of the FHIR variant. -/
structure PatientTableRow where
  fhir_id : String
  family : String
  given : String
  birthDate : String
  received_at : String
deriving DecidableEq

/-- The persistent state touched by fhir_ingest: the two SQLite tables. -/
structure DB where
  patients : List PatientTableRow
  fhir_messages : List FhirMsgRow
deriving DecidableEq

/-- The name entry of a parsed FHIR Patient object: each field is absent or
present (a Python dict .get). -/
structure FhirName where
  family : Option String
  given : Option (List String)
deriving DecidableEq

/-- The fields of a parsed JSON object that fhir_ingest reads. -/
structure FhirObj where
  resourceType : Option String
  name : Option (List FhirName)
  birthDate : Option String
  id : Option String
deriving DecidableEq

/-- The response of fhir_ingest. -/
inductive IngestResp where
  | unsupportedMedia
  | badJson
  | notPatient
  | missingFields
  | created (id : String)
deriving DecidableEq

/-- HTTP status of each fhir_ingest response. -/
def respStatus : IngestResp → Nat
  | .unsupportedMedia => 415
  | .badJson => 400
  | .notPatient => 400
  | .missingFields => 400
  | .created _ => 201

/-- The characters Python str.strip removes. -/
def pyIsSpace (c : Char) : Bool :=
  c = ' ' || c = '\t' || c = '\n' || c = '\r' || c = '\x0b' || c = '\x0c'

/-- Python s.split(sep)[0]: the characters before the first separator. -/
def pySplitHead (sep : Char) : List Char → List Char
  | [] => []
  | c :: rest => if c = sep then [] else c :: pySplitHead sep rest

/-- Python s.strip(): drop whitespace from both ends. -/
def pyStrip (l : List Char) : List Char :=
  ((l.dropWhile pyIsSpace).reverse.dropWhile pyIsSpace).reverse

/-- Python s.lower(). -/
def pyLower (l : List Char) : List Char := l.map Char.toLower

/-- The content-type gate of fhir_ingest:
req.headers.get("content-type","").split(";")[0].strip().lower() must be
application/fhir+json or application/json.  The header is modelled as its
character sequence. -/
def contentTypeOk (ct : List Char) : Bool :=
  let mainPart := pyLower (pyStrip (pySplitHead ';' ct))
  mainPart == "application/fhir+json".data || mainPart == "application/json".data

/-- The empty dict default of obj.get("name", [{}])[0]. -/
def emptyFhirName : FhirName := ⟨none, none⟩

/-- The /fhir/Patient route of the FHIR variant.  `rawLossy` is the request
body decoded with errors="ignore" (the value stored); `parsed` is the result
of json.loads on the strictly decoded body together with the dict reads: it
is none when decoding or parsing raises, or the value is not a dict (the
except clause turns any of those into the bad-json 400).  An explicitly
present but empty name list makes name[0] raise IndexError, also reaching
the except clause.  The raw body is inserted into fhir_messages before any
parsing or validation. -/
def fhir_ingest (ct : List Char) (rawLossy : String) (parsed : Option FhirObj)
    (created_at : String) (db : DB) : IngestResp × DB :=
  if ¬ contentTypeOk ct then (.unsupportedMedia, db)
  else
    let db1 : DB := { db with fhir_messages := db.fhir_messages ++ [⟨created_at, rawLossy⟩] }
    match parsed with
    | none => (.badJson, db1)
    | some obj =>
      if obj.resourceType ≠ some "Patient" then (.notPatient, db1)
      else
        match obj.name.getD [emptyFhirName] with
        | [] => (.badJson, db1)
        | nm :: _ =>
          let family := (nm.family.getD "").trim
          let given := ((nm.given.getD []).headD "").trim
          let birthDate := (obj.birthDate.getD "").trim
          let fhir_id := (obj.id.getD "").trim
          if family ≠ "" ∧ given ≠ "" ∧ birthDate ≠ "" then
            (.created fhir_id,
             { db1 with
               patients := db1.patients ++ [⟨fhir_id, family, given, birthDate, created_at⟩] })
          else (.missingFields, db1)

theorem disconnect_eq_erase (active : List Conn) (c : Conn) :
    disconnect active c = active.erase c := by
  by_cases h : c ∈ active
  · simp [disconnect, h]
  · simp [disconnect, h, List.erase_of_not_mem h]

/-- One FHIR broadcast pass in which every listed member is connected and
every failure is of a caught class: every member is attempted in order, no
exception escapes, and exactly the failing members are erased. -/
theorem fhirBroadcastGo_allCaught (state : Conn → WSState) (send : Conn → Option Exc)
    (rest : List Conn) :
    ∀ attempted active : List Conn,
    (∀ c ∈ rest, state c = WSState.connected) →
    (∀ c ∈ rest, ∀ e, send c = some e → fhirCaught e = true) →
    fhirBroadcastGo state send rest attempted active =
      ⟨attempted ++ rest,
       rest.foldl (fun a c => if (send c).isSome then a.erase c else a) active,
       none⟩ := by
  induction rest with
  | nil => intro attempted active _ _; simp [fhirBroadcastGo]
  | cons c rest ih =>
    intro attempted active hst hca
    have hc : state c = WSState.connected := hst c (List.mem_cons_self c rest)
    have hst2 : ∀ d ∈ rest, state d = WSState.connected :=
      fun d hd => hst d (List.mem_cons_of_mem c hd)
    have hca2 : ∀ d ∈ rest, ∀ e, send d = some e → fhirCaught e = true :=
      fun d hd => hca d (List.mem_cons_of_mem c hd)
    rcases hsend : send c with _ | e
    · simp [fhirBroadcastGo, hc, hsend, ih (attempted ++ [c]) active hst2 hca2]
    · have he : fhirCaught e = true := hca c (List.mem_cons_self c rest) e hsend
      simp [fhirBroadcastGo, hc, hsend, he, disconnect_eq_erase,
        ih (attempted ++ [c]) (active.erase c) hst2 hca2]

/-- The conditional-erase fold does nothing when no listed send fails. -/
theorem foldl_erase_id (send : Conn → Option Exc) (l : List Conn) :
    ∀ a : List Conn, (∀ c ∈ l, send c = none) →
    l.foldl (fun a c => if (send c).isSome then a.erase c else a) a = a := by
  induction l with
  | nil => intro a _; rfl
  | cons c l ih =>
    intro a h
    have hc : send c = none := h c (List.mem_cons_self c l)
    simp only [List.foldl_cons, hc, Option.isSome_none, Bool.false_eq_true, if_false]
    exact ih a fun d hd => h d (List.mem_cons_of_mem c hd)

/-- When exactly the connection k among the listed members fails, the
conditional-erase fold erases exactly k. -/
theorem foldl_erase_single (send : Conn → Option Exc) (k : Conn) (l : List Conn) :
    ∀ a : List Conn, (∀ c ∈ l, c ≠ k → send c = none) → (send k).isSome = true →
    l.count k = 1 →
    l.foldl (fun a c => if (send c).isSome then a.erase c else a) a = a.erase k := by
  induction l with
  | nil => intro a _ _ hcount; simp at hcount
  | cons c l ih =>
    intro a hok hk hcount
    by_cases hck : c = k
    · subst hck
      have h0 : l.count c = 0 := by
        have := List.count_cons_self c l
        omega
      have hnone : ∀ d ∈ l, send d = none := by
        intro d hd
        have hdc : d ≠ c := by
          rintro rfl
          exact absurd (List.count_pos_iff.mpr hd) (by omega)
        exact hok d (List.mem_cons_of_mem c hd) hdc
      simp only [List.foldl_cons, hk, if_true]
      exact foldl_erase_id send l (a.erase c) hnone
    · have hc : send c = none := hok c (List.mem_cons_self c l) hck
      have hcount2 : l.count k = 1 := by
        have := List.count_cons_of_ne (fun h => hck h.symm) l
        omega
      simp only [List.foldl_cons, hc, Option.isSome_none, Bool.false_eq_true, if_false]
      exact ih a (fun d hd => hok d (List.mem_cons_of_mem c hd)) hk hcount2

/-- The HL7 drop list is empty when no listed send fails. -/
theorem hl7Drop_nil (send : Conn → Option Exc) (l : List Conn)
    (h : ∀ c ∈ l, send c = none) : hl7Drop send l = [] := by
  induction l with
  | nil => rfl
  | cons c l ih =>
    have hc : send c = none := h c (List.mem_cons_self c l)
    simp [hl7Drop, hc, ih fun d hd => h d (List.mem_cons_of_mem c hd)]

/-- When exactly the connection k among the listed members fails, the HL7
drop list is [k]. -/
theorem hl7Drop_single (send : Conn → Option Exc) (k : Conn) (e : Exc) (l : List Conn) :
    (∀ c ∈ l, c ≠ k → send c = none) → send k = some e → l.count k = 1 →
    hl7Drop send l = [k] := by
  induction l with
  | nil => intro _ _ hcount; simp at hcount
  | cons c l ih =>
    intro hok hke hcount
    by_cases hck : c = k
    · subst hck
      have h0 : l.count c = 0 := by
        have := List.count_cons_self c l
        omega
      have hnone : ∀ d ∈ l, send d = none := by
        intro d hd
        have hdc : d ≠ c := by
          rintro rfl
          exact absurd (List.count_pos_iff.mpr hd) (by omega)
        exact hok d (List.mem_cons_of_mem c hd) hdc
      simp [hl7Drop, hke, hl7Drop_nil send l hnone]
    · have hc : send c = none := hok c (List.mem_cons_self c l) hck
      have hcount2 : l.count k = 1 := by
        have := List.count_cons_of_ne (fun h => hck h.symm) l
        omega
      simp [hl7Drop, hc, ih (fun d hd => hok d (List.mem_cons_of_mem c hd)) hke hcount2]

/-- Unfolding step of the FHIR broadcast loop: connected member, successful send. -/
theorem fhirBroadcastGo_step_ok (state : Conn → WSState) (send : Conn → Option Exc)
    {d : Conn} (rest attempted active : List Conn)
    (hd : state d = WSState.connected) (hsend : send d = none) :
    fhirBroadcastGo state send (d :: rest) attempted active =
      fhirBroadcastGo state send rest (attempted ++ [d]) active := by
  simp [fhirBroadcastGo, hd, hsend]

/-- Unfolding step of the FHIR broadcast loop: connected member, caught failure. -/
theorem fhirBroadcastGo_step_caught (state : Conn → WSState) (send : Conn → Option Exc)
    {d : Conn} {e : Exc} (rest attempted active : List Conn)
    (hd : state d = WSState.connected) (hsend : send d = some e)
    (he : fhirCaught e = true) :
    fhirBroadcastGo state send (d :: rest) attempted active =
      fhirBroadcastGo state send rest (attempted ++ [d]) (active.erase d) := by
  simp [fhirBroadcastGo, hd, hsend, he, disconnect_eq_erase]

/-- Unfolding step of the FHIR broadcast loop: member not connected. -/
theorem fhirBroadcastGo_step_closed (state : Conn → WSState) (send : Conn → Option Exc)
    {d : Conn} (rest attempted active : List Conn)
    (hd : state d ≠ WSState.connected) :
    fhirBroadcastGo state send (d :: rest) attempted active =
      fhirBroadcastGo state send rest attempted (active.erase d) := by
  simp [fhirBroadcastGo, hd, disconnect_eq_erase]

/-- One FHIR broadcast pass, counted at a connection c that is not in the
connected state, when every failure is of a caught class: each listed
occurrence of c is erased from the registry (count arithmetic) and no
exception escapes. -/
theorem fhirBroadcastGo_count_closed (state : Conn → WSState) (send : Conn → Option Exc)
    (c : Conn) (hcl : state c ≠ WSState.connected)
    (hca : ∀ d e, send d = some e → fhirCaught e = true)
    (rest : List Conn) :
    ∀ attempted active : List Conn,
    (fhirBroadcastGo state send rest attempted active).active.count c =
      active.count c - rest.count c ∧
    (fhirBroadcastGo state send rest attempted active).exc = none := by
  induction rest with
  | nil => intro attempted active; simp [fhirBroadcastGo]
  | cons d rest ih =>
    intro attempted active
    by_cases hd : state d = WSState.connected
    · have hdc : c ≠ d := by rintro rfl; exact hcl hd
      have hrest : List.count c (d :: rest) = List.count c rest :=
        List.count_cons_of_ne hdc rest
      rcases hsend : send d with _ | e
      · rw [fhirBroadcastGo_step_ok state send rest attempted active hd hsend]
        show List.count c _ = List.count c active - List.count c (d :: rest) ∧ _
        rw [hrest]
        exact ih (attempted ++ [d]) active
      · have he : fhirCaught e = true := hca d e hsend
        rw [fhirBroadcastGo_step_caught state send rest attempted active hd hsend he]
        show List.count c _ = List.count c active - List.count c (d :: rest) ∧ _
        rw [hrest]
        have := ih (attempted ++ [d]) (active.erase d)
        rwa [List.count_erase_of_ne hdc] at this
    · rw [fhirBroadcastGo_step_closed state send rest attempted active hd]
      have := ih attempted (active.erase d)
      by_cases hdc : d = c
      · subst hdc
        rw [List.count_erase_self] at this
        refine ⟨?_, this.2⟩
        rw [this.1, List.count_cons_self]
        omega
      · rw [List.count_erase_of_ne (fun h => hdc h.symm)] at this
        show List.count c _ = List.count c active - List.count c (d :: rest) ∧ _
        rw [List.count_cons_of_ne (fun h => hdc h.symm)]
        exact this

/-- Claim C1 (amended): for a duplicate-free registry of connected members in
which delivery to exactly the connection k fails with an exception of a class
the broadcast handles (in the FHIR variant one of the five caught classes;
the HL7 variant handles every Exception), broadcast attempts delivery to
every member including k, no exception escapes to the caller, and the
registry afterwards holds exactly the members other than k.  The original
claim, quantified over every failure, is refuted by
claimC1_counterexample: an unhandled exception class aborts the FHIR
iteration and escapes. -/
theorem claimC1_broadcast_failure_isolated (state : Conn → WSState)
    (send : Conn → Option Exc) (active : List Conn) (k : Conn) (e : Exc)
    (hnd : active.Nodup) (hk : k ∈ active)
    (hst : ∀ c ∈ active, state c = WSState.connected)
    (hke : send k = some e) (hec : fhirCaught e = true)
    (hok : ∀ c ∈ active, c ≠ k → send c = none) :
    fhirBroadcast state send active = ⟨active, active.erase k, none⟩ ∧
    hl7Broadcast send active = ⟨active, active.erase k, none⟩ ∧
    (active.erase k).length + 1 = active.length ∧
    k ∉ active.erase k ∧
    (∀ c ∈ active, c ≠ k → c ∈ active.erase k) := by
  have hcount : active.count k = 1 := List.count_eq_one_of_mem hnd hk
  have hca : ∀ c ∈ active, ∀ e2, send c = some e2 → fhirCaught e2 = true := by
    intro c hc e2 he2
    by_cases hck : c = k
    · subst hck; rw [hke] at he2; cases he2; exact hec
    · rw [hok c hc hck] at he2; cases he2
  refine ⟨?_, ?_, ?_, ?_, ?_⟩
  · rw [fhirBroadcast, fhirBroadcastGo_allCaught state send active [] active hst hca,
      foldl_erase_single send k active active hok (by rw [hke]; rfl) hcount]
    simp
  · rw [hl7Broadcast, hl7Drop_single send k e active hok hke hcount]
    simp [disconnect_eq_erase]
  · rw [List.length_erase_of_mem hk]
    have := List.length_pos_of_mem hk
    omega
  · intro hmem
    exact ((List.Nodup.mem_erase_iff hnd).mp hmem).1 rfl
  · intro c hc hck
    rw [List.mem_erase_of_ne hck]
    exact hc

/-- Witness for claim C1 at registry [0, 1, 2] with connection 1 failing
with OSError: both variants attempt all three members, raise nothing, and
end with the registry [0, 2]. -/
theorem claimC1_witness :
    fhirBroadcast (fun _ => WSState.connected)
      (fun c => if c = 1 then some Exc.osError else none) [0, 1, 2] =
      ⟨[0, 1, 2], ([0, 1, 2] : List Conn).erase 1, none⟩ ∧
    hl7Broadcast (fun c => if c = 1 then some Exc.osError else none) [0, 1, 2] =
      ⟨[0, 1, 2], ([0, 1, 2] : List Conn).erase 1, none⟩ ∧
    (([0, 1, 2] : List Conn).erase 1).length + 1 = ([0, 1, 2] : List Conn).length ∧
    (1 : Conn) ∉ ([0, 1, 2] : List Conn).erase 1 ∧
    (∀ c ∈ ([0, 1, 2] : List Conn), c ≠ 1 → c ∈ ([0, 1, 2] : List Conn).erase 1) :=
  claimC1_broadcast_failure_isolated _ _ _ 1 Exc.osError (by decide) (by decide)
    (by intro c _; rfl) (by rfl) (by rfl) (by decide)

/-- Counterexample to claim C1 as stated: an unhandled exception class (a
serialization TypeError, or any Exception outside the five-class tuple) on
connection 0 makes the FHIR broadcast raise to its caller, skip the send to
connection 1 entirely, and leave the registry unchanged. -/
theorem claimC1_counterexample :
    (fhirBroadcast (fun _ => WSState.connected)
        (fun c => if c = 0 then some Exc.typeError else none) [0, 1]).exc =
      some Exc.typeError ∧
    (1 : Conn) ∉ (fhirBroadcast (fun _ => WSState.connected)
        (fun c => if c = 0 then some Exc.typeError else none) [0, 1]).attempted ∧
    (fhirBroadcast (fun _ => WSState.connected)
        (fun c => if c = 0 then some Exc.typeError else none) [0, 1]).active = [0, 1] := by
  refine ⟨rfl, by decide, rfl⟩

/-- Invariant run of a mutation sequence: from a duplicate-free registry
that agrees with a set s, a sequence whose adds are all fresh keeps the
registry duplicate-free and in agreement with the set semantics. -/
theorem applyRegOps_spec (ops : List RegOp) :
    ∀ (active : List Conn) (s : Finset Conn),
    active.Nodup → (∀ c, c ∈ active ↔ c ∈ s) → addFresh active ops = true →
    (applyRegOps active ops).Nodup ∧
    ∀ c, c ∈ applyRegOps active ops ↔ c ∈ ops.foldl specStep s := by
  induction ops with
  | nil =>
    intro active s hnd hiff _
    exact ⟨hnd, fun c => by simpa [applyRegOps] using hiff c⟩
  | cons op rest ih =>
    intro active s hnd hiff haf
    have hstep : applyRegOps active (op :: rest) = applyRegOps (applyRegOp active op) rest := by
      simp [applyRegOps]
    have hfold : (op :: rest).foldl specStep s = rest.foldl specStep (specStep s op) := by
      simp
    rw [hstep, hfold]
    cases op with
    | add c =>
      have hparts := (Bool.and_eq_true _ _).mp haf
      have hfresh : c ∉ active := of_decide_eq_true hparts.1
      have haf2 : addFresh (applyRegOp active (RegOp.add c)) rest = true := hparts.2
      have hnd2 : (active ++ [c]).Nodup := by
        rw [List.nodup_append]
        refine ⟨hnd, List.nodup_singleton c, ?_⟩
        intro a ha hb
        rw [List.mem_singleton] at hb
        subst hb
        exact hfresh ha
      have hiff2 : ∀ d, d ∈ active ++ [c] ↔ d ∈ insert c s := by
        intro d
        rw [List.mem_append, List.mem_singleton, Finset.mem_insert, hiff d]
        tauto
      simpa [applyRegOp, connect, specStep] using ih (active ++ [c]) (insert c s) hnd2 hiff2 haf2
    | rem c =>
      have hparts := (Bool.and_eq_true _ _).mp haf
      have haf2 : addFresh (applyRegOp active (RegOp.rem c)) rest = true := hparts.2
      have hnd2 : (active.erase c).Nodup := hnd.erase c
      have hiff2 : ∀ d, d ∈ active.erase c ↔ d ∈ s.erase c := by
        intro d
        rw [List.Nodup.mem_erase_iff hnd, Finset.mem_erase, hiff d]
      have hrw : applyRegOp active (RegOp.rem c) = active.erase c := by
        simp [applyRegOp, disconnect_eq_erase]
      rw [hrw] at haf2
      simpa [applyRegOp, specStep, disconnect_eq_erase]
        using ih (active.erase c) (s.erase c) hnd2 hiff2 haf2

/-- Claim C2 (amended): for every sequence of connect/disconnect operations
from the empty registry in which connect is never called on a connection
already registered, the final registry is duplicate-free and its members are
exactly the connections added and not subsequently removed.  The original
claim over all sequences is refuted by claimC2_counterexample: connect
appends unconditionally, so adding the same connection twice leaves it in
the snapshot twice. -/
theorem claimC2_snapshot_exact (ops : List RegOp) (h : addFresh [] ops = true) :
    (applyRegOps [] ops).Nodup ∧
    ∀ c, c ∈ applyRegOps [] ops ↔ c ∈ specMembers ops :=
  applyRegOps_spec ops [] ∅ List.nodup_nil (by simp) h

/-- Witness for claim C2 on the sequence add 0, add 1, remove 0. -/
theorem claimC2_witness :
    addFresh [] [RegOp.add 0, RegOp.add 1, RegOp.rem 0] = true ∧
    ((applyRegOps [] [RegOp.add 0, RegOp.add 1, RegOp.rem 0]).Nodup ∧
      ∀ c, c ∈ applyRegOps [] [RegOp.add 0, RegOp.add 1, RegOp.rem 0] ↔
        c ∈ specMembers [RegOp.add 0, RegOp.add 1, RegOp.rem 0]) :=
  ⟨by decide, claimC2_snapshot_exact _ (by decide)⟩

/-- Counterexample to claim C2 as stated: adding connection 0 twice leaves
it in the snapshot twice, not exactly once. -/
theorem claimC2_counterexample :
    applyRegOps [] [RegOp.add 0, RegOp.add 0] = [0, 0] ∧
    (applyRegOps [] [RegOp.add 0, RegOp.add 0]).count 0 = 2 := by decide

/-- Claim C6 (amended): removing an absent connection is a no-op and raises
nothing, and on every registry in which c occurs at most once removal of c
is idempotent.  The unrestricted idempotence of the original claim is
refuted by claimC6_counterexample on a registry holding c twice. -/
theorem claimC6_disconnect_noop_idem (active : List Conn) (c : Conn) :
    (c ∉ active → disconnect active c = active) ∧
    (active.count c ≤ 1 → disconnect (disconnect active c) c = disconnect active c) := by
  constructor
  · intro h; simp [disconnect, h]
  · intro h
    by_cases hc : c ∈ active
    · have h1 : active.count c = 1 :=
        le_antisymm h (List.count_pos_iff.mpr hc)
      have h0 : (active.erase c).count c = 0 := by
        rw [List.count_erase_self, h1]
      have hne : c ∉ active.erase c := List.count_eq_zero.mp h0
      rw [disconnect_eq_erase active c]
      simp [disconnect, hne]
    · simp [disconnect, hc]

/-- Witness for claim C6: removing absent 0 from [1, 2] is a no-op, and
removal of 0 from [0, 1] is idempotent. -/
theorem claimC6_witness :
    disconnect [1, 2] 0 = [1, 2] ∧
    disconnect (disconnect [0, 1] 0) 0 = disconnect ([0, 1] : List Conn) 0 :=
  ⟨(claimC6_disconnect_noop_idem [1, 2] 0).1 (by decide),
   (claimC6_disconnect_noop_idem [0, 1] 0).2 (by decide)⟩

/-- Counterexample to claim C6 as stated: the registry [0, 0] is reachable
by two connect calls, and there removing 0 twice is not the same as
removing it once (list.remove deletes one occurrence per call). -/
theorem claimC6_counterexample :
    connect (connect [] 0) 0 = [0, 0] ∧
    disconnect (disconnect [0, 0] 0) 0 ≠ disconnect ([0, 0] : List Conn) 0 := by decide

/-- Claim C7 (amended): in the FHIR variant, whenever a broadcast runs in
which every send failure is of a handled class, every registered connection
whose client_state is not CONNECTED is removed by that broadcast and no
exception escapes.  The HL7 variant checks no state and removes a closed
connection only if the send on it raises: claimC7_counterexample keeps a
closed connection whose send returns without raising. -/
theorem claimC7_closed_removed (state : Conn → WSState) (send : Conn → Option Exc)
    (active : List Conn) (c : Conn)
    (_hc : c ∈ active) (hcl : state c ≠ WSState.connected)
    (hca : ∀ d e, send d = some e → fhirCaught e = true) :
    c ∉ (fhirBroadcast state send active).active ∧
    (fhirBroadcast state send active).exc = none := by
  have h := fhirBroadcastGo_count_closed state send c hcl hca active [] active
  have h0 : (fhirBroadcast state send active).active.count c = 0 := by
    unfold fhirBroadcast
    rw [h.1, Nat.sub_self]
  refine ⟨List.count_eq_zero.mp h0, ?_⟩
  unfold fhirBroadcast
  exact h.2

/-- Witness for claim C7: connection 5 is registered but disconnected; an
FHIR broadcast with no send failures removes it and raises nothing. -/
theorem claimC7_witness :
    (5 : Conn) ∉ (fhirBroadcast
        (fun c => if c = 5 then WSState.disconnected else WSState.connected)
        (fun _ => none) [5, 6]).active ∧
    (fhirBroadcast (fun c => if c = 5 then WSState.disconnected else WSState.connected)
        (fun _ => none) [5, 6]).exc = none :=
  claimC7_closed_removed _ _ _ 5 (by decide) (by decide) (by intro d e h; cases h)

/-- Counterexample to claim C7 as stated: connection 5 is in the closed
state, yet the HL7 broadcast, which never reads client_state, keeps it in
the registry because its send returns without raising (a write on a dead
peer need not raise). -/
theorem claimC7_counterexample :
    (fun _ => WSState.disconnected : Conn → WSState) 5 = WSState.disconnected ∧
    (hl7Broadcast (fun _ => none) [5]).active = [5] :=
  ⟨rfl, rfl⟩

/-- Claim C3 (amended): in the FHIR variant, when 30 time units pass with no
inbound frame on a connected connection, the loop sends exactly one ping
frame before the next wait cycle; the HL7 chief_server loop has no timeout
and sends nothing during silence (refuting the original claim over both
services, see claimC3_counterexample). -/
theorem claimC3_heartbeat_on_timeout (rest : List EnvEvent) :
    (fhirLoopRun WSState.connected (EnvEvent.silence30 :: rest)).1 =
      Frame.ping :: (fhirLoopRun WSState.connected rest).1 ∧
    (fhirLoopRun WSState.connected (EnvEvent.silence30 :: rest)).2 =
      (fhirLoopRun WSState.connected rest).2 ∧
    hl7LoopRun (EnvEvent.silence30 :: rest) = hl7LoopRun rest := by
  refine ⟨?_, ?_, ?_⟩ <;> simp [fhirLoopRun, hl7LoopRun]

/-- Counterexample to claim C3 as stated: on the HL7 chief_server, a
connection that sees 30 silent time units is sent no heartbeat at all. -/
theorem claimC3_counterexample :
    (hl7LoopRun [EnvEvent.silence30]).1 = ([] : List Frame) := rfl

/-- Claim C5 (amended): on every exit cause the FHIR handler's finally
clause removes the connection from a duplicate-free registry; the HL7
handler removes it on every exit cause that is an Exception, but not on
task cancellation (a BaseException), which matches neither of its except
clauses (see claimC5_counterexample). -/
theorem claimC5_exit_removes (active : List Conn) (c : Conn) (cause : ExitCause)
    (hnd : active.Nodup) :
    c ∉ (fhirChiefExit active c cause).1 ∧
    (cause ≠ ExitCause.cancelled → c ∉ (hl7ChiefExit active c cause).1) := by
  have hmain : c ∉ disconnect active c := by
    rw [disconnect_eq_erase]
    intro hmem
    exact ((List.Nodup.mem_erase_iff hnd).mp hmem).1 rfl
  refine ⟨hmain, ?_⟩
  intro hcz
  cases cause with
  | cancelled => exact absurd rfl hcz
  | wsDisconnect => exact hmain
  | connReset => exact hmain
  | osErr => exact hmain
  | otherExc => exact hmain

/-- Witness for claim C5: an OSError exit removes connection 3 from [3] in
both handlers. -/
theorem claimC5_witness :
    (3 : Conn) ∉ (fhirChiefExit [3] 3 ExitCause.osErr).1 ∧
    (ExitCause.osErr ≠ ExitCause.cancelled →
      (3 : Conn) ∉ (hl7ChiefExit [3] 3 ExitCause.osErr).1) :=
  claimC5_exit_removes [3] 3 ExitCause.osErr (by decide)

/-- Counterexample to claim C5 as stated: when the HL7 handler's task is
cancelled while waiting, the loop exits but connection 7 stays in the
registry, because CancelledError is a BaseException and the handler has no
finally clause. -/
theorem claimC5_counterexample :
    (hl7ChiefExit [7] 7 ExitCause.cancelled).1 = [7] ∧
    (hl7ChiefExit [7] 7 ExitCause.cancelled).2 = some ExitCause.cancelled :=
  ⟨rfl, rfl⟩

/-- The FHIR loop output depends only on the shape of the trace, not on the
text contents. -/
theorem fhirLoopRun_sameShape (st : WSState) {l1 l2 : List EnvEvent}
    (h : SameShape l1 l2) : fhirLoopRun st l1 = fhirLoopRun st l2 := by
  induction h with
  | nil => rfl
  | text s t h ih => simp [fhirLoopRun, ih]
  | silence h ih => simp [fhirLoopRun, ih]
  | disc h ih => simp [fhirLoopRun]

/-- The HL7 loop output depends only on the shape of the trace, not on the
text contents. -/
theorem hl7LoopRun_sameShape {l1 l2 : List EnvEvent}
    (h : SameShape l1 l2) : hl7LoopRun l1 = hl7LoopRun l2 := by
  induction h with
  | nil => rfl
  | text s t h ih => simp [hl7LoopRun, ih]
  | silence h ih => simp [hl7LoopRun, ih]
  | disc h ih => simp [hl7LoopRun]

/-- Claim C9 (confirmed): the liveness loops discard the content of every
inbound text frame, so two handler runs whose environment traces differ only
in the contents of inbound texts send the same frames and end with the same
registry, in both variants. -/
theorem claimC9_content_ignored (st : WSState) (rows : List PatientRow)
    (active : List Conn) (c : Conn) {l1 l2 : List EnvEvent} (h : SameShape l1 l2) :
    fhirChiefWsRun st rows active c l1 = fhirChiefWsRun st rows active c l2 ∧
    hl7ChiefWsRun rows active c l1 = hl7ChiefWsRun rows active c l2 :=
  ⟨by simp [fhirChiefWsRun, fhirLoopRun_sameShape st h],
   by simp [hl7ChiefWsRun, hl7LoopRun_sameShape h]⟩

/-- Witness for claim C9 on two traces whose single text frame differs. -/
theorem claimC9_witness :
    SameShape [EnvEvent.text "hello", EnvEvent.disconnected]
      [EnvEvent.text "other", EnvEvent.disconnected] ∧
    fhirChiefWsRun WSState.connected [] [] 0 [EnvEvent.text "hello", EnvEvent.disconnected] =
      fhirChiefWsRun WSState.connected [] [] 0 [EnvEvent.text "other", EnvEvent.disconnected] ∧
    hl7ChiefWsRun [] [] 0 [EnvEvent.text "hello", EnvEvent.disconnected] =
      hl7ChiefWsRun [] [] 0 [EnvEvent.text "other", EnvEvent.disconnected] :=
  ⟨SameShape.text "hello" "other" (SameShape.disc SameShape.nil),
   (claimC9_content_ignored WSState.connected [] [] 0
      (SameShape.text "hello" "other" (SameShape.disc SameShape.nil))).1,
   (claimC9_content_ignored WSState.connected [] [] 0
      (SameShape.text "hello" "other" (SameShape.disc SameShape.nil))).2⟩

/-- Claim C8 (amended): in the FHIR variant the iteration is over the
call-time copy, so the set of attempted deliveries of one broadcast call is
the same under every interleaving of concurrent add/remove mutations; in the
HL7 variant the loop iterates the live list and a concurrent removal can
make the iterator skip a still-registered connection
(claimC8_counterexample). -/
theorem claimC8_snapshot_fixes_attempts (state : Nat → Conn → WSState)
    (send : Nat → Conn → Option Exc) (sched1 sched2 : Nat → List RegOp)
    (active : List Conn) :
    (fhirBroadcastConc state send sched1 active).1 =
      (fhirBroadcastConc state send sched2 active).1 := by
  suffices h : ∀ (rest : List Conn) (i : Nat) (attempted a1 a2 : List Conn),
      (fhirBroadcastConcGo state send sched1 rest i attempted a1).1 =
      (fhirBroadcastConcGo state send sched2 rest i attempted a2).1 by
    exact h active 0 [] active active
  intro rest
  induction rest with
  | nil => intro i attempted a1 a2; rfl
  | cons c rest ih =>
    intro i attempted a1 a2
    by_cases hc : state i c = WSState.connected
    · rcases hsend : send i c with _ | e
      · simp only [fhirBroadcastConcGo, hc, hsend, if_true]
        exact ih (i + 1) (attempted ++ [c]) _ _
      · by_cases he : fhirCaught e = true
        · simp only [fhirBroadcastConcGo, hc, hsend, he, if_true]
          exact ih (i + 1) (attempted ++ [c]) _ _
        · simp only [fhirBroadcastConcGo, hc, hsend, he, if_true, if_false,
            Bool.false_eq_true]
    · simp only [fhirBroadcastConcGo, hc, if_false]
      exact ih (i + 1) attempted _ _

/-- Counterexample to claim C8 as stated: on the HL7 variant with registry
[0, 1], a concurrent disconnect of 0 during the first send makes the live
iterator stop before 1, so the still-registered connection 1 never gets a
delivery attempt in that broadcast call. -/
theorem claimC8_counterexample :
    hl7BroadcastConc (fun _ _ => none) (fun i => if i = 0 then [RegOp.rem 0] else [])
      10 [0, 1] = some ([0], [1]) ∧
    (1 : Conn) ∈ ([0, 1] : List Conn) ∧ (1 : Conn) ∉ ([0] : List Conn) := by
  refine ⟨rfl, by decide, by decide⟩

/-- Claim C4 (amended): (1) in every trace in which the append of connection
c is immediately followed by the handler's snapshot send to c (the source
has no suspension point between them), every send of a broadcast that
started after the append reaches c only after the snapshot send; (2) when
two broadcast tasks run sequentially (the first completes before the second
starts), every connection receives their events in trigger order.  The
unconditional per-connection FIFO of the original claim fails under task
interleaving: claimC4_counterexample exhibits a valid interleaving in which
a connection receives the later broadcast's event first. -/
theorem claimC4_snapshot_first_and_fifo :
    (∀ (t : List Act) (c : Conn) (b i j k : Nat),
        t.get? i = some (Act.append c) →
        t.get? (i + 1) = some (Act.sendSnap c) →
        t.get? j = some (Act.bStart b) → i < j →
        t.get? k = some (Act.bSend b c) → j < k →
        i + 1 < k) ∧
    (∀ (b1 b2 : Nat) (s1 s2 : List Conn) (c : Conn) (k1 k2 : Nat),
        b1 ≠ b2 →
        (broadcastTask b1 s1 ++ broadcastTask b2 s2).get? k1 = some (Act.bSend b1 c) →
        (broadcastTask b1 s1 ++ broadcastTask b2 s2).get? k2 = some (Act.bSend b2 c) →
        k1 < k2) := by
  have hmem : ∀ (b : Nat) (s : List Conn) (n : Nat) (x : Act),
      (broadcastTask b s).get? n = some x →
      x = Act.bStart b ∨ ∃ d, x = Act.bSend b d := by
    intro b s n x hx
    have hx2 := List.get?_mem hx
    rcases List.mem_cons.mp hx2 with h | h
    · exact Or.inl h
    · rcases List.mem_map.mp h with ⟨d, _, hd⟩
      exact Or.inr ⟨d, hd.symm⟩
  constructor
  · intro t c b i j k h1 h2 h3 hij h4 hjk
    rcases Nat.lt_or_ge j (i + 2) with hj | hj
    · have hj1 : j = i + 1 := by omega
      subst hj1
      rw [h2] at h3
      cases h3
    · omega
  · intro b1 b2 s1 s2 c k1 k2 hne h1 h2
    have hlen1 : k1 < (broadcastTask b1 s1).length := by
      by_contra hge
      push_neg at hge
      rw [List.get?_append_right hge] at h1
      rcases hmem b2 s2 _ _ h1 with h | ⟨d, h⟩
      · cases h
      · cases h
        exact hne rfl
    have hlen2 : (broadcastTask b1 s1).length ≤ k2 := by
      by_contra hlt
      push_neg at hlt
      rw [List.get?_append hlt] at h2
      rcases hmem b1 s1 _ _ h2 with h | ⟨d, h⟩
      · cases h
      · cases h
        exact hne rfl
    omega

/-- Witness for claim C4: part one on the trace append 5, sendSnap 5,
bStart 0, bSend 0 5 (indices 0, 1, 2, 3), part two on two sequential
broadcasts over the snapshot [4]. -/
theorem claimC4_witness : (0 : Nat) + 1 < 3 ∧ (1 : Nat) < 3 :=
  ⟨claimC4_snapshot_first_and_fifo.1
      [Act.append 5, Act.sendSnap 5, Act.bStart 0, Act.bSend 0 5] 5 0 0 2 3
      rfl rfl rfl (by decide) rfl (by decide),
   claimC4_snapshot_first_and_fifo.2 1 2 [4] [4] 4 1 3 (by decide) rfl rfl⟩

/-- Counterexample to claim C4 as stated: a valid interleaving of broadcast
task 1 (triggered first, position 0) and broadcast task 2 (position 2), both
over the snapshot [9, 7], in which broadcast 1 suspends on its send to 9 and
broadcast 2 overtakes it, so connection 7 receives broadcast 2's event
(position 4) before broadcast 1's (position 5): per-connection FIFO in
trigger order is violated. -/
theorem claimC4_counterexample :
    Merge (broadcastTask 1 [9, 7]) (broadcastTask 2 [9, 7])
      [Act.bStart 1, Act.bSend 1 9, Act.bStart 2, Act.bSend 2 9,
       Act.bSend 2 7, Act.bSend 1 7] ∧
    [Act.bStart 1, Act.bSend 1 9, Act.bStart 2, Act.bSend 2 9,
       Act.bSend 2 7, Act.bSend 1 7].get? 0 = some (Act.bStart 1) ∧
    [Act.bStart 1, Act.bSend 1 9, Act.bStart 2, Act.bSend 2 9,
       Act.bSend 2 7, Act.bSend 1 7].get? 2 = some (Act.bStart 2) ∧
    [Act.bStart 1, Act.bSend 1 9, Act.bStart 2, Act.bSend 2 9,
       Act.bSend 2 7, Act.bSend 1 7].get? 4 = some (Act.bSend 2 7) ∧
    [Act.bStart 1, Act.bSend 1 9, Act.bStart 2, Act.bSend 2 9,
       Act.bSend 2 7, Act.bSend 1 7].get? 5 = some (Act.bSend 1 7) :=
  ⟨Merge.left (Merge.left (Merge.right (Merge.right (Merge.right
      (Merge.left Merge.nil))))),
   rfl, rfl, rfl, rfl⟩

/-- Claim C10 (confirmed): for every request with an accepted content type,
fhir_ingest appends the raw body to fhir_messages before any parsing or
validation, so the stored row is present in the final state of every
outcome, the 400 rejections included, and the persistent state is never the
unchanged input state. -/
theorem claimC10_raw_persisted (ct : List Char) (rawLossy : String)
    (parsed : Option FhirObj) (created_at : String) (db : DB)
    (hct : contentTypeOk ct = true) :
    (fhir_ingest ct rawLossy parsed created_at db).2.fhir_messages =
      db.fhir_messages ++ [⟨created_at, rawLossy⟩] ∧
    (fhir_ingest ct rawLossy parsed created_at db).2.fhir_messages ≠
      db.fhir_messages := by
  have hmain : (fhir_ingest ct rawLossy parsed created_at db).2.fhir_messages =
      db.fhir_messages ++ [⟨created_at, rawLossy⟩] := by
    unfold fhir_ingest
    rw [if_neg (by simp [hct])]
    cases parsed with
    | none => rfl
    | some obj =>
      dsimp only
      split
      · rfl
      · split
        · rfl
        · split
          · rfl
          · rfl
  refine ⟨hmain, ?_⟩
  rw [hmain]
  intro hcontra
  have hlen := congrArg List.length hcontra
  simp at hlen

/-- Witness for claim C10: a request with content type application/json and
an unparsable body is answered with the bad-json 400 while its raw body
stays stored in fhir_messages. -/
theorem claimC10_witness :
    contentTypeOk "application/json".data = true ∧
    (fhir_ingest "application/json".data "not json at all" none "t0" ⟨[], []⟩).1 =
      IngestResp.badJson ∧
    (fhir_ingest "application/json".data "not json at all" none "t0"
        ⟨[], []⟩).2.fhir_messages = [] ++ [⟨"t0", "not json at all"⟩] ∧
    (fhir_ingest "application/json".data "not json at all" none "t0"
        ⟨[], []⟩).2.fhir_messages ≠ ([] : List FhirMsgRow) :=
  ⟨by decide, by decide,
   (claimC10_raw_persisted "application/json".data "not json at all" none "t0"
      ⟨[], []⟩ (by decide)).1,
   (claimC10_raw_persisted "application/json".data "not json at all" none "t0"
      ⟨[], []⟩ (by decide)).2⟩
